import Mathlib

/-!
Verification of the Inverse-Time-Limit-Theory repository.

Shallow embedding over exact real arithmetic (`ℝ` for the numeric state,
`ℚ` for the sampler's grid of distance factors, which the source builds
from exact decimal constants).  Python's `float('inf')` result of
`calculate_time_dilation` is modelled by `Option ℝ` with `none` standing
for the infinite value; an invalid mode string makes `derivatives` fail
in Python (unbound local), modelled by `Option ℝ` with `none`.

Namespace `Adv` embeds `src/Adwanced_simulation.py`; namespace `Sim`
embeds the particle-infall `run_simulation` of `src/itlt_simulation.py`;
namespace `Curve` embeds the dilation-curve sampler of the same file.
-/

namespace Adv

/-- CONFIGURATION constant `L_P = 1.0` of Adwanced_simulation.py. -/
noncomputable def L_P : ℝ := 1.0

/-- CONFIGURATION constant `K_INV = 1.0` of Adwanced_simulation.py. -/
noncomputable def K_INV : ℝ := 1.0

/-- CONFIGURATION constant `DT = 0.01` of Adwanced_simulation.py. -/
noncomputable def DT : ℝ := 0.01

/-- CONFIGURATION constant `TOTAL_STEPS = 3000` of Adwanced_simulation.py. -/
def TOTAL_STEPS : ℕ := 3000

/-- Embeds `get_resistance` (Adwanced_simulation.py, lines 13-24).
For `x > L_P` the radicand `1 - (L_P/x)^2` is positive, so the
`try/except` never fires and is not represented. -/
noncomputable def get_resistance (x : ℝ) : ℝ :=
  if x ≤ L_P then 1e9
  else
    let factor := Real.sqrt (1 - (L_P / x) ^ 2)
    let factor := if factor < 1e-9 then 1e-9 else factor
    K_INV / factor

/-- Local constant `v_base = 0.5` of `derivatives`. -/
noncomputable def v_base : ℝ := 0.5

/-- Embeds `derivatives(t, y, mode)` (Adwanced_simulation.py, lines 26-46).
The source returns the 1-element array `np.array([dx_dt])`, modelled by the
scalar; with a mode other than `'standard'`/`'itlt'` the local `dx_dt` is
never assigned and the Python call raises, modelled by `none`.  The `t`
argument is accepted but unused, as in the source. -/
noncomputable def derivatives (t y : ℝ) (mode : String) : Option ℝ :=
  if mode = "standard" then some (-v_base)
  else if mode = "itlt" then some (-v_base / get_resistance y)
  else none

/-- Embeds `rk4_step(t, y, dt, mode)` (Adwanced_simulation.py, lines 48-59). -/
noncomputable def rk4_step (t y dt : ℝ) (mode : String) : Option ℝ :=
  (derivatives t y mode).bind fun k1 =>
  (derivatives (t + dt / 2) (y + k1 * dt / 2) mode).bind fun k2 =>
  (derivatives (t + dt / 2) (y + k2 * dt / 2) mode).bind fun k3 =>
  (derivatives (t + dt) (y + k3 * dt) mode).bind fun k4 =>
  some (y + (dt / 6) * (k1 + 2 * k2 + 2 * k3 + k4))

end Adv

namespace Adv

/-- Standard-particle update of one loop iteration of `run_simulation`
(Adwanced_simulation.py, lines 83-88): step with RK4 while above 0, clamp a
negative result to `0.0` (Crash), and hold `0.0` otherwise.  `rk4_step` with
mode `'standard'` always returns a value, so the `getD` default is inert. -/
noncomputable def stdUpdate (t x : ℝ) : ℝ :=
  if 0 < x then
    let y := (rk4_step t x DT "standard").getD x
    if y < 0 then 0 else y
  else 0

/-- ITLT-particle update of one loop iteration of `run_simulation`
(Adwanced_simulation.py, lines 90-95): step with RK4 while above `L_P`,
clamp a result below `L_P` to `L_P` (Freeze), and hold `L_P` otherwise. -/
noncomputable def itltUpdate (t x : ℝ) : ℝ :=
  if L_P < x then
    let y := (rk4_step t x DT "itlt").getD x
    if y < L_P then L_P else y
  else L_P

/-- Loop state of `run_simulation` (Adwanced_simulation.py, lines 61-97):
current time, the two particle states, and the three recorded sequences. -/
@[ext]
structure LoopState where
  t : ℝ
  state_std : ℝ
  state_itlt : ℝ
  time_points : List ℝ
  hist_std : List ℝ
  hist_itlt : List ℝ

/-- One iteration of the `for _ in range(TOTAL_STEPS)` loop: record the
pre-step time and positions, then update both particles and advance `t`. -/
noncomputable def loopIter (s : LoopState) : LoopState where
  t := s.t + DT
  state_std := stdUpdate s.t s.state_std
  state_itlt := itltUpdate s.t s.state_itlt
  time_points := s.time_points ++ [s.t]
  hist_std := s.hist_std ++ [s.state_std]
  hist_itlt := s.hist_itlt ++ [s.state_itlt]

/-- Embeds `run_simulation` (Adwanced_simulation.py, lines 61-97) with the
initial position and the iteration count as parameters (the script fixes
`start_x = 5.0` and `TOTAL_STEPS = 3000`). -/
noncomputable def run_simulation (start : ℝ) (steps : ℕ) : LoopState :=
  loopIter^[steps] ⟨0, start, start, [], [], []⟩

/-- Standard-particle position after `n` loop iterations. -/
noncomputable def stdPos (start : ℝ) (n : ℕ) : ℝ := (stdUpdate 0)^[n] start

/-- ITLT-particle position after `n` loop iterations. -/
noncomputable def itltPos (start : ℝ) (n : ℕ) : ℝ := (itltUpdate 0)^[n] start

end Adv

namespace Sim

/-- Local constant `l_p = 1.0` of the particle `run_simulation`
(itlt_simulation.py, line 100). -/
noncomputable def l_p : ℝ := 1.0

/-- Local constant `k_inv = 1.0` (itlt_simulation.py, line 101). -/
noncomputable def k_inv : ℝ := 1.0

/-- Local constant `dt = 0.01` (itlt_simulation.py, line 104). -/
noncomputable def dt : ℝ := 0.01

/-- Local constant `total_steps = 2000` (itlt_simulation.py, line 105). -/
def total_steps : ℕ := 2000

/-- Local constant `start_distance = 5.0` (itlt_simulation.py, line 106). -/
noncomputable def start_distance : ℝ := 5.0

/-- Local constant `v_infall = 0.5` (itlt_simulation.py, line 128). -/
noncomputable def v_infall : ℝ := 0.5

/-- Classical-particle update of one loop iteration (itlt_simulation.py,
lines 131-134): Euler step `x -= v_infall * dt` while above 0, else reset
to `0`.  There is no post-step clamp in this implementation. -/
noncomputable def classUpdate (x : ℝ) : ℝ :=
  if 0 < x then x - v_infall * dt else 0

/-- Clamped denominator of the Piya equation (itlt_simulation.py, lines
143-144): `sqrt(1 - (l_p/x)^2)`, floored at `1e-9`.  For `x > l_p` the
radicand is positive, so the `try/except` never fires. -/
noncomputable def denomClamp (x : ℝ) : ℝ :=
  let denominator := Real.sqrt (1 - (l_p / x) ^ 2)
  if denominator < 1e-9 then 1e-9 else denominator

/-- ITLT-particle update of one loop iteration (itlt_simulation.py, lines
139-159): while above `l_p`, damp the infall by the temporal resistance and
take one Euler step; otherwise reset to `l_p`.  There is no post-step
clamp in this implementation. -/
noncomputable def itltUpdate (x : ℝ) : ℝ :=
  if l_p < x then
    let time_resistance := k_inv / denomClamp x
    let v_observed := v_infall / time_resistance
    x - v_observed * dt
  else l_p

/-- Loop state of the particle `run_simulation` (itlt_simulation.py,
lines 108-161). -/
@[ext]
structure LoopState where
  t : ℝ
  x_class : ℝ
  x_itlt : ℝ
  time_axis : List ℝ
  dist_classical : List ℝ
  dist_itlt : List ℝ

/-- One iteration of the `for i in range(total_steps)` loop: record the
pre-step time and positions, then update both particles and advance `t`. -/
noncomputable def loopIter (s : LoopState) : LoopState where
  t := s.t + dt
  x_class := classUpdate s.x_class
  x_itlt := itltUpdate s.x_itlt
  time_axis := s.time_axis ++ [s.t]
  dist_classical := s.dist_classical ++ [s.x_class]
  dist_itlt := s.dist_itlt ++ [s.x_itlt]

/-- Embeds the particle `run_simulation` (itlt_simulation.py, lines
96-161) with the initial position and the iteration count as parameters
(the script fixes `start_distance = 5.0` and `total_steps = 2000`). -/
noncomputable def run_simulation (start : ℝ) (steps : ℕ) : LoopState :=
  loopIter^[steps] ⟨0, start, start, [], [], []⟩

/-- Classical-particle position after `n` loop iterations. -/
noncomputable def classPos (start : ℝ) (n : ℕ) : ℝ := classUpdate^[n] start

/-- ITLT-particle position after `n` loop iterations. -/
noncomputable def itltPos (start : ℝ) (n : ℕ) : ℝ := itltUpdate^[n] start

end Sim

lemma adv_rk4_standard (t y dt : ℝ) :
    Adv.rk4_step t y dt "standard" = some (y - Adv.v_base * dt) := by
  simp only [Adv.rk4_step, Adv.derivatives, if_pos rfl, if_true, Option.bind_some,
    Option.some_bind]
  congr 1
  ring

lemma adv_stdUpdate_t (t t' x : ℝ) : Adv.stdUpdate t x = Adv.stdUpdate t' x := rfl

lemma adv_itltUpdate_t (t t' x : ℝ) : Adv.itltUpdate t x = Adv.itltUpdate t' x := rfl

lemma adv_run_closed (start : ℝ) (n : ℕ) :
    Adv.run_simulation start n =
      { t := n * Adv.DT
        state_std := Adv.stdPos start n
        state_itlt := Adv.itltPos start n
        time_points := (List.range n).map (fun i : ℕ => (i : ℝ) * Adv.DT)
        hist_std := (List.range n).map (Adv.stdPos start)
        hist_itlt := (List.range n).map (Adv.itltPos start) } := by
  induction n with
  | zero => simp [Adv.run_simulation, Adv.stdPos, Adv.itltPos]
  | succ n ih =>
    rw [Adv.run_simulation, Function.iterate_succ_apply', ← Adv.run_simulation, ih]
    simp only [Adv.loopIter, Adv.LoopState.mk.injEq, List.range_succ, List.map_append,
      List.map_singleton, Adv.stdPos, Adv.itltPos, Function.iterate_succ_apply']
    exact ⟨by push_cast; ring, adv_stdUpdate_t _ 0 _, adv_itltUpdate_t _ 0 _, trivial, trivial, trivial⟩

lemma sim_run_closed (start : ℝ) (n : ℕ) :
    Sim.run_simulation start n =
      { t := n * Sim.dt
        x_class := Sim.classPos start n
        x_itlt := Sim.itltPos start n
        time_axis := (List.range n).map (fun i : ℕ => (i : ℝ) * Sim.dt)
        dist_classical := (List.range n).map (Sim.classPos start)
        dist_itlt := (List.range n).map (Sim.itltPos start) } := by
  induction n with
  | zero => simp [Sim.run_simulation, Sim.classPos, Sim.itltPos]
  | succ n ih =>
    rw [Sim.run_simulation, Function.iterate_succ_apply', ← Sim.run_simulation, ih]
    simp only [Sim.loopIter, Sim.LoopState.mk.injEq, List.range_succ, List.map_append,
      List.map_singleton, Sim.classPos, Sim.itltPos, Function.iterate_succ_apply']
    exact ⟨by push_cast; ring, trivial, trivial, trivial, trivial, trivial⟩

lemma adv_L_P_eq : Adv.L_P = 1 := by norm_num [Adv.L_P]

lemma adv_K_INV_eq : Adv.K_INV = 1 := by norm_num [Adv.K_INV]

lemma adv_radicand_pos (x : ℝ) (hx : 1 < x) : 0 < 1 - (Adv.L_P / x) ^ 2 := by
  rw [adv_L_P_eq]
  have hx0 : 0 < x := lt_trans one_pos hx
  have h1 : 1 / x < 1 := by rw [div_lt_one hx0]; exact hx
  have h0 : (0 : ℝ) ≤ 1 / x := by positivity
  have := pow_lt_one₀ h0 h1 two_ne_zero
  linarith

lemma adv_factor_lt_one (x : ℝ) (hx : 1 < x) :
    Real.sqrt (1 - (Adv.L_P / x) ^ 2) < 1 := by
  rw [Real.sqrt_lt' one_pos]
  have hx0 : 0 < x := lt_trans one_pos hx
  have h0 : 0 < (Adv.L_P / x) ^ 2 := by
    have : 0 < Adv.L_P / x := by rw [adv_L_P_eq]; positivity
    positivity
  nlinarith

lemma adv_get_resistance_mem (x : ℝ) :
    1 < Adv.get_resistance x ∧ Adv.get_resistance x ≤ 1e9 := by
  simp only [Adv.get_resistance]
  split_ifs with h1 h2
  · norm_num
  · rw [adv_K_INV_eq]; norm_num
  · have hx : 1 < x := by have := not_le.mp h1; rwa [adv_L_P_eq] at this
    have hf1 : Real.sqrt (1 - (Adv.L_P / x) ^ 2) < 1 := adv_factor_lt_one x hx
    have hf9 : 1e-9 ≤ Real.sqrt (1 - (Adv.L_P / x) ^ 2) := not_lt.mp h2
    have hf0 : 0 < Real.sqrt (1 - (Adv.L_P / x) ^ 2) := by linarith [(by norm_num : (0:ℝ) < 1e-9)]
    rw [adv_K_INV_eq]
    constructor
    · rw [lt_div_iff₀ hf0, one_mul]; exact hf1
    · rw [div_le_iff₀ hf0]; nlinarith

lemma adv_get_resistance_pos (x : ℝ) : 0 < Adv.get_resistance x :=
  lt_trans one_pos (adv_get_resistance_mem x).1

lemma adv_derivatives_itlt (t y : ℝ) :
    Adv.derivatives t y "itlt" = some (-Adv.v_base / Adv.get_resistance y) := by
  rw [Adv.derivatives, if_neg (by decide), if_pos rfl]

lemma adv_deriv_val_neg (z : ℝ) : -Adv.v_base / Adv.get_resistance z < 0 := by
  apply div_neg_of_neg_of_pos
  · norm_num [Adv.v_base]
  · exact adv_get_resistance_pos z

namespace Adv

/-- First RK4 stage of the ITLT mode, as produced by `rk4_step`. -/
noncomputable def itltK1 (y : ℝ) : ℝ := -v_base / get_resistance y

/-- Second RK4 stage of the ITLT mode. -/
noncomputable def itltK2 (y dt : ℝ) : ℝ :=
  -v_base / get_resistance (y + itltK1 y * dt / 2)

/-- Third RK4 stage of the ITLT mode. -/
noncomputable def itltK3 (y dt : ℝ) : ℝ :=
  -v_base / get_resistance (y + itltK2 y dt * dt / 2)

/-- Fourth RK4 stage of the ITLT mode. -/
noncomputable def itltK4 (y dt : ℝ) : ℝ :=
  -v_base / get_resistance (y + itltK3 y dt * dt)

end Adv

lemma adv_rk4_itlt (t y dt : ℝ) :
    Adv.rk4_step t y dt "itlt" =
      some (y + (dt / 6) *
        (Adv.itltK1 y + 2 * Adv.itltK2 y dt + 2 * Adv.itltK3 y dt + Adv.itltK4 y dt)) := by
  simp only [Adv.rk4_step, adv_derivatives_itlt, Option.some_bind,
    Adv.itltK1, Adv.itltK2, Adv.itltK3, Adv.itltK4]

lemma adv_itlt_sum_neg (y dt : ℝ) :
    Adv.itltK1 y + 2 * Adv.itltK2 y dt + 2 * Adv.itltK3 y dt + Adv.itltK4 y dt < 0 := by
  have h1 : Adv.itltK1 y < 0 := adv_deriv_val_neg y
  have h2 : Adv.itltK2 y dt < 0 := adv_deriv_val_neg _
  have h3 : Adv.itltK3 y dt < 0 := adv_deriv_val_neg _
  have h4 : Adv.itltK4 y dt < 0 := adv_deriv_val_neg _
  linarith

lemma adv_rk4_standard_getD (t x d : ℝ) :
    (Adv.rk4_step t x Adv.DT "standard").getD d = x - Adv.v_base * Adv.DT := by
  rw [adv_rk4_standard, Option.getD_some]

lemma adv_rk4_itlt_getD (t x d : ℝ) :
    (Adv.rk4_step t x Adv.DT "itlt").getD d =
      x + (Adv.DT / 6) *
        (Adv.itltK1 x + 2 * Adv.itltK2 x Adv.DT + 2 * Adv.itltK3 x Adv.DT +
          Adv.itltK4 x Adv.DT) := by
  rw [adv_rk4_itlt, Option.getD_some]

lemma adv_stdUpdate_nonneg (t x : ℝ) : 0 ≤ Adv.stdUpdate t x := by
  simp only [Adv.stdUpdate]
  split_ifs with h1 h2
  · exact le_rfl
  · exact not_lt.mp h2
  · exact le_rfl

lemma adv_stdUpdate_le (t x : ℝ) (hx : 0 ≤ x) : Adv.stdUpdate t x ≤ x := by
  simp only [Adv.stdUpdate]
  split_ifs with h1 h2
  · exact hx
  · rw [adv_rk4_standard_getD]
    have : 0 < Adv.v_base * Adv.DT := by norm_num [Adv.v_base, Adv.DT]
    linarith
  · exact hx

lemma adv_itltUpdate_ge (t x : ℝ) : Adv.L_P ≤ Adv.itltUpdate t x := by
  simp only [Adv.itltUpdate]
  split_ifs with h1 h2
  · exact le_rfl
  · rw [adv_rk4_itlt_getD] at h2 ⊢
    exact not_lt.mp h2
  · exact le_rfl

lemma adv_itltUpdate_le (t x : ℝ) (hx : Adv.L_P ≤ x) : Adv.itltUpdate t x ≤ x := by
  simp only [Adv.itltUpdate]
  split_ifs with h1 h2
  · linarith
  · rw [adv_rk4_itlt_getD]
    have hsum := adv_itlt_sum_neg x Adv.DT
    have hdt : 0 < Adv.DT / 6 := by norm_num [Adv.DT]
    nlinarith
  · exact hx

lemma adv_stdPos_nonneg (start : ℝ) (h : 0 ≤ start) (n : ℕ) : 0 ≤ Adv.stdPos start n := by
  induction n with
  | zero => exact h
  | succ n ih =>
    rw [Adv.stdPos, Function.iterate_succ_apply']
    exact adv_stdUpdate_nonneg 0 _

lemma adv_itltPos_ge (start : ℝ) (h : Adv.L_P ≤ start) (n : ℕ) :
    Adv.L_P ≤ Adv.itltPos start n := by
  induction n with
  | zero => exact h
  | succ n ih =>
    rw [Adv.itltPos, Function.iterate_succ_apply']
    exact adv_itltUpdate_ge 0 _

lemma adv_stdPos_mono (start : ℝ) (h : 0 ≤ start) (n : ℕ) :
    Adv.stdPos start (n + 1) ≤ Adv.stdPos start n := by
  rw [Adv.stdPos, Function.iterate_succ_apply']
  exact adv_stdUpdate_le 0 _ (adv_stdPos_nonneg start h n)

lemma adv_itltPos_mono (start : ℝ) (h : Adv.L_P ≤ start) (n : ℕ) :
    Adv.itltPos start (n + 1) ≤ Adv.itltPos start n := by
  rw [Adv.itltPos, Function.iterate_succ_apply']
  exact adv_itltUpdate_le 0 _ (adv_itltPos_ge start h n)

lemma sim_l_p_eq : Sim.l_p = 1 := by norm_num [Sim.l_p]

lemma sim_k_inv_eq : Sim.k_inv = 1 := by norm_num [Sim.k_inv]

lemma sim_v_dt_pos : 0 < Sim.v_infall * Sim.dt := by norm_num [Sim.v_infall, Sim.dt]

lemma sim_denomClamp_mem (x : ℝ) : 1e-9 ≤ Sim.denomClamp x ∧ Sim.denomClamp x ≤ 1 := by
  simp only [Sim.denomClamp]
  split_ifs with h
  · norm_num
  · refine ⟨not_lt.mp h, ?_⟩
    calc Real.sqrt (1 - (Sim.l_p / x) ^ 2) ≤ Real.sqrt 1 :=
          Real.sqrt_le_sqrt (by nlinarith [sq_nonneg (Sim.l_p / x)])
    _ = 1 := Real.sqrt_one

lemma sim_denomClamp_pos (x : ℝ) : 0 < Sim.denomClamp x :=
  lt_of_lt_of_le (by norm_num) (sim_denomClamp_mem x).1

lemma sim_itltUpdate_of_gt (x : ℝ) (hx : Sim.l_p < x) :
    Sim.itltUpdate x = x - Sim.v_infall / (Sim.k_inv / Sim.denomClamp x) * Sim.dt := by
  simp only [Sim.itltUpdate, if_pos hx]

lemma sim_step_val (x : ℝ) :
    Sim.v_infall / (Sim.k_inv / Sim.denomClamp x) = Sim.v_infall * Sim.denomClamp x := by
  have hd : Sim.denomClamp x ≠ 0 := ne_of_gt (sim_denomClamp_pos x)
  rw [sim_k_inv_eq]
  field_simp

lemma sim_itltUpdate_lt (x : ℝ) (hx : Sim.l_p < x) : Sim.itltUpdate x < x := by
  rw [sim_itltUpdate_of_gt x hx, sim_step_val]
  have hv : 0 < Sim.v_infall := by norm_num [Sim.v_infall]
  have hdt : 0 < Sim.dt := by norm_num [Sim.dt]
  have := mul_pos (mul_pos hv (sim_denomClamp_pos x)) hdt
  linarith

lemma sim_itltUpdate_ge_sub (x : ℝ) (hx : Sim.l_p < x) :
    x - Sim.v_infall * Sim.dt ≤ Sim.itltUpdate x := by
  rw [sim_itltUpdate_of_gt x hx, sim_step_val]
  have hv : 0 < Sim.v_infall := by norm_num [Sim.v_infall]
  have hdt : 0 < Sim.dt := by norm_num [Sim.dt]
  have hd1 : Sim.denomClamp x ≤ 1 := (sim_denomClamp_mem x).2
  nlinarith [mul_nonneg (mul_nonneg hv.le hdt.le) (sub_nonneg.mpr hd1)]

lemma sim_itltUpdate_gt_floor (x : ℝ) :
    Sim.l_p - Sim.v_infall * Sim.dt < Sim.itltUpdate x := by
  by_cases hx : Sim.l_p < x
  · have := sim_itltUpdate_ge_sub x hx
    linarith
  · rw [Sim.itltUpdate, if_neg hx]
    linarith [sim_v_dt_pos]

lemma sim_itltUpdate_le_max (x : ℝ) : Sim.itltUpdate x ≤ max x Sim.l_p := by
  by_cases hx : Sim.l_p < x
  · exact le_max_of_le_left (le_of_lt (sim_itltUpdate_lt x hx))
  · rw [Sim.itltUpdate, if_neg hx]
    exact le_max_right x Sim.l_p

lemma sim_classUpdate_gt_floor (x : ℝ) :
    -(Sim.v_infall * Sim.dt) < Sim.classUpdate x := by
  rw [Sim.classUpdate]
  split_ifs with h
  · linarith
  · linarith [sim_v_dt_pos]

lemma sim_classUpdate_le_max (x : ℝ) : Sim.classUpdate x ≤ max x 0 := by
  rw [Sim.classUpdate]
  split_ifs with h
  · have := sim_v_dt_pos
    have : x - Sim.v_infall * Sim.dt ≤ x := by linarith
    exact le_max_of_le_left this
  · exact le_max_right x 0

lemma sim_classPos_gt_floor (start : ℝ) (h : -(Sim.v_infall * Sim.dt) < start) (n : ℕ) :
    -(Sim.v_infall * Sim.dt) < Sim.classPos start n := by
  cases n with
  | zero => exact h
  | succ n =>
    rw [Sim.classPos, Function.iterate_succ_apply']
    exact sim_classUpdate_gt_floor _

lemma sim_itltPos_gt_floor (start : ℝ) (h : Sim.l_p - Sim.v_infall * Sim.dt < start) (n : ℕ) :
    Sim.l_p - Sim.v_infall * Sim.dt < Sim.itltPos start n := by
  cases n with
  | zero => exact h
  | succ n =>
    rw [Sim.itltPos, Function.iterate_succ_apply']
    exact sim_itltUpdate_gt_floor _

lemma sim_classPos_succ_le_max (start : ℝ) (n : ℕ) :
    Sim.classPos start (n + 1) ≤ max (Sim.classPos start n) 0 := by
  rw [Sim.classPos, Function.iterate_succ_apply']
  exact sim_classUpdate_le_max _

lemma sim_itltPos_succ_le_max (start : ℝ) (n : ℕ) :
    Sim.itltPos start (n + 1) ≤ max (Sim.itltPos start n) Sim.l_p := by
  rw [Sim.itltPos, Function.iterate_succ_apply']
  exact sim_itltUpdate_le_max _

lemma adv_stdUpdate_fix (t : ℝ) : Adv.stdUpdate t 0 = 0 := by
  rw [Adv.stdUpdate, if_neg (lt_irrefl 0)]

lemma adv_itltUpdate_fix (t : ℝ) : Adv.itltUpdate t Adv.L_P = Adv.L_P := by
  rw [Adv.itltUpdate, if_neg (lt_irrefl Adv.L_P)]

lemma sim_classUpdate_fix : Sim.classUpdate 0 = 0 := by
  rw [Sim.classUpdate, if_neg (lt_irrefl 0)]

lemma sim_itltUpdate_fix : Sim.itltUpdate Sim.l_p = Sim.l_p := by
  rw [Sim.itltUpdate, if_neg (lt_irrefl Sim.l_p)]

lemma adv_stdPos_absorb (start : ℝ) (n m : ℕ) (hnm : n ≤ m)
    (h : Adv.stdPos start n = 0) : Adv.stdPos start m = 0 := by
  have : m = (m - n) + n := (Nat.sub_add_cancel hnm).symm
  rw [Adv.stdPos, this, Function.iterate_add_apply]
  rw [Adv.stdPos] at h
  rw [h]
  exact Function.iterate_fixed (adv_stdUpdate_fix 0) (m - n)

lemma adv_itltPos_absorb (start : ℝ) (n m : ℕ) (hnm : n ≤ m)
    (h : Adv.itltPos start n = Adv.L_P) : Adv.itltPos start m = Adv.L_P := by
  have : m = (m - n) + n := (Nat.sub_add_cancel hnm).symm
  rw [Adv.itltPos, this, Function.iterate_add_apply]
  rw [Adv.itltPos] at h
  rw [h]
  exact Function.iterate_fixed (adv_itltUpdate_fix 0) (m - n)

lemma sim_classPos_absorb (start : ℝ) (n m : ℕ) (hnm : n ≤ m)
    (h : Sim.classPos start n = 0) : Sim.classPos start m = 0 := by
  have : m = (m - n) + n := (Nat.sub_add_cancel hnm).symm
  rw [Sim.classPos, this, Function.iterate_add_apply]
  rw [Sim.classPos] at h
  rw [h]
  exact Function.iterate_fixed sim_classUpdate_fix (m - n)

lemma sim_itltPos_absorb (start : ℝ) (n m : ℕ) (hnm : n ≤ m)
    (h : Sim.itltPos start n = Sim.l_p) : Sim.itltPos start m = Sim.l_p := by
  have : m = (m - n) + n := (Nat.sub_add_cancel hnm).symm
  rw [Sim.itltPos, this, Function.iterate_add_apply]
  rw [Sim.itltPos] at h
  rw [h]
  exact Function.iterate_fixed sim_itltUpdate_fix (m - n)

namespace Curve

/-- Constant `l_p = 1.616255e-35` (itlt_simulation.py, line 12). -/
noncomputable def l_p : ℝ := 1.616255e-35

/-- Constant `t_p = 5.391247e-44` (itlt_simulation.py, line 13). -/
noncomputable def t_p : ℝ := 5.391247e-44

/-- Constant `k_inv = t_p` (itlt_simulation.py, line 17). -/
noncomputable def k_inv : ℝ := t_p

/-- Embeds `calculate_time_dilation` (itlt_simulation.py, lines 21-35);
`none` models the `float('inf')` returned at or below the boundary.
For `x_factor > 1` the radicand is positive. -/
noncomputable def calculate_time_dilation (x_factor : ℝ) : Option ℝ :=
  if x_factor ≤ 1 then none
  else some (k_inv / Real.sqrt (1 - (1 / x_factor) ^ 2))

/-- Embeds `np.linspace(a, b, n)` over exact rationals: `n` evenly spaced
points from `a` to `b` inclusive, point `i` being `a + i*(b-a)/(n-1)`. -/
def linspace (a b : ℚ) (n : ℕ) : List ℚ :=
  (List.range n).map (fun i : ℕ => a + i * ((b - a) / ((n : ℚ) - 1)))

/-- The concatenation `np.concatenate([...])` of the three sampling bands
(itlt_simulation.py, lines 42-46). -/
def x_factors_concat : List ℚ :=
  linspace 1.001 1.1 50 ++ linspace 1.1 2.5 50 ++ linspace 2.5 10.0 50

/-- Embeds `x_factors = np.sort(...)` applied to the concatenation
(itlt_simulation.py, line 47); `np.sort` is modelled by insertion sort,
which produces the same ascending rearrangement. -/
def x_factors : List ℚ := List.insertionSort (· ≤ ·) x_factors_concat

/-- Embeds `t_values = [calculate_time_dilation(xf) for xf in x_factors]`
(itlt_simulation.py, line 49). -/
noncomputable def t_values : List (Option ℝ) :=
  x_factors.map (fun xf : ℚ => calculate_time_dilation (xf : ℝ))

/-- Embeds `dilation_factors = [t / t_p for t in t_values]`
(itlt_simulation.py, line 50); dividing the infinite value by `t_p`
stays infinite. -/
noncomputable def dilation_factors : List (Option ℝ) :=
  t_values.map (Option.map (fun t => t / t_p))

end Curve


lemma curve_linspace_length (a b : ℚ) (n : ℕ) : (Curve.linspace a b n).length = n := by
  simp [Curve.linspace]

lemma curve_linspace_getElem (a b : ℚ) {n i : ℕ} (h : i < n) :
    (Curve.linspace a b n)[i]? = some (a + i * ((b - a) / ((n : ℚ) - 1))) := by
  simp [Curve.linspace, List.getElem?_map, List.getElem?_range h]

lemma curve_linspace_sorted_lt (a b : ℚ) (hab : a < b) {n : ℕ} (hn : 2 ≤ n) :
    List.Sorted (· < ·) (Curve.linspace a b n) := by
  have hn2 : (2 : ℚ) ≤ (n : ℚ) := by exact_mod_cast hn
  have hs : 0 < (b - a) / ((n : ℚ) - 1) := div_pos (by linarith) (by linarith)
  rw [Curve.linspace, List.Sorted, List.pairwise_map]
  refine (List.pairwise_lt_range n).imp ?_
  intro i j hij
  have hq : (i : ℚ) < (j : ℚ) := by exact_mod_cast hij
  have := mul_lt_mul_of_pos_right hq hs
  linarith

lemma curve_linspace_mem_bounds (a b : ℚ) (hab : a ≤ b) {n : ℕ} (hn : 2 ≤ n) :
    ∀ y ∈ Curve.linspace a b n, a ≤ y ∧ y ≤ b := by
  intro y hy
  rw [Curve.linspace, List.mem_map] at hy
  obtain ⟨i, hi, rfl⟩ := hy
  rw [List.mem_range] at hi
  have hn2 : (2 : ℚ) ≤ (n : ℚ) := by exact_mod_cast hn
  have hn1 : (0 : ℚ) < (n : ℚ) - 1 := by linarith
  have hs : 0 ≤ (b - a) / ((n : ℚ) - 1) := div_nonneg (by linarith) hn1.le
  have hi0 : (0 : ℚ) ≤ (i : ℚ) := by positivity
  constructor
  · nlinarith [mul_nonneg hi0 hs]
  · have hi1 : (i : ℚ) + 1 ≤ (n : ℚ) := by exact_mod_cast hi
    have key : (i : ℚ) * ((b - a) / ((n : ℚ) - 1)) ≤
        ((n : ℚ) - 1) * ((b - a) / ((n : ℚ) - 1)) :=
      mul_le_mul_of_nonneg_right (by linarith) hs
    have hcancel : ((n : ℚ) - 1) * ((b - a) / ((n : ℚ) - 1)) = b - a :=
      mul_div_cancel₀ _ (ne_of_gt hn1)
    linarith [key, hcancel.le, hcancel.ge]

lemma curve_linspace_head (a b : ℚ) {n : ℕ} (hn : 0 < n) :
    (Curve.linspace a b n).head? = some a := by
  rw [List.head?_eq_getElem?, curve_linspace_getElem a b hn]
  norm_num

lemma curve_linspace_getLast (a b : ℚ) {n : ℕ} (hn : 2 ≤ n) :
    (Curve.linspace a b n).getLast? = some b := by
  have h1 : n - 1 < n := by omega
  rw [List.getLast?_eq_getElem?, curve_linspace_length, curve_linspace_getElem a b h1]
  have hn2 : (2 : ℚ) ≤ (n : ℚ) := by exact_mod_cast hn
  have hn1 : ((n : ℚ) - 1) ≠ 0 := ne_of_gt (by linarith)
  have hcast : ((n - 1 : ℕ) : ℚ) = (n : ℚ) - 1 := by
    have h2 : 1 ≤ n := by omega
    push_cast [h2]
    ring
  rw [hcast]
  congr 1
  rw [mul_div_cancel₀ _ hn1]
  ring

lemma curve_linspace_endpoint_mem (a b : ℚ) {n : ℕ} (hn : 2 ≤ n) :
    b ∈ Curve.linspace a b n := by
  rw [Curve.linspace, List.mem_map]
  refine ⟨n - 1, List.mem_range.mpr (by omega), ?_⟩
  have hn2 : (2 : ℚ) ≤ (n : ℚ) := by exact_mod_cast hn
  have hn1 : ((n : ℚ) - 1) ≠ 0 := ne_of_gt (by linarith)
  have hcast : ((n - 1 : ℕ) : ℚ) = (n : ℚ) - 1 := by
    have h2 : 1 ≤ n := by omega
    push_cast [h2]
    ring
  rw [hcast, mul_div_cancel₀ _ hn1]
  ring

lemma curve_linspace_start_mem (a b : ℚ) {n : ℕ} (hn : 0 < n) :
    a ∈ Curve.linspace a b n := by
  rw [Curve.linspace, List.mem_map]
  exact ⟨0, List.mem_range.mpr hn, by norm_num⟩

lemma curve_concat_sorted : List.Sorted (· ≤ ·) Curve.x_factors_concat := by
  have s1 := (curve_linspace_sorted_lt 1.001 1.1 (by norm_num) (by norm_num : 2 ≤ 50)).le_of_lt
  have s2 := (curve_linspace_sorted_lt 1.1 2.5 (by norm_num) (by norm_num : 2 ≤ 50)).le_of_lt
  have s3 := (curve_linspace_sorted_lt 2.5 10.0 (by norm_num) (by norm_num : 2 ≤ 50)).le_of_lt
  have b1 := curve_linspace_mem_bounds 1.001 1.1 (by norm_num) (by norm_num : 2 ≤ 50)
  have b2 := curve_linspace_mem_bounds 1.1 2.5 (by norm_num) (by norm_num : 2 ≤ 50)
  have b3 := curve_linspace_mem_bounds 2.5 10.0 (by norm_num) (by norm_num : 2 ≤ 50)
  rw [Curve.x_factors_concat]
  rw [List.Sorted, List.pairwise_append]
  refine ⟨?_, ?_, ?_⟩
  · rw [List.pairwise_append]
    refine ⟨s1, s2, ?_⟩
    intro x hx y hy
    have hx2 := (b1 x hx).2
    have hy1 := (b2 y hy).1
    linarith
  · exact s3
  · intro x hx y hy
    have hy1 := (b3 y hy).1
    rcases List.mem_append.mp hx with h | h
    · have := (b1 x h).2
      linarith
    · have := (b2 x h).2
      linarith

lemma curve_x_factors_eq : Curve.x_factors = Curve.x_factors_concat :=
  curve_concat_sorted.insertionSort_eq

lemma curve_x_factors_sorted : List.Sorted (· ≤ ·) Curve.x_factors :=
  curve_x_factors_eq ▸ curve_concat_sorted

lemma curve_x_factors_length : Curve.x_factors.length = 150 := by
  rw [Curve.x_factors, List.length_insertionSort, Curve.x_factors_concat]
  simp [curve_linspace_length]

lemma curve_x_factors_head : Curve.x_factors.head? = some 1.001 := by
  rw [curve_x_factors_eq, Curve.x_factors_concat, List.head?_append, List.head?_append,
    curve_linspace_head 1.001 1.1 (by norm_num)]
  rfl

lemma curve_x_factors_getLast : Curve.x_factors.getLast? = some 10 := by
  rw [curve_x_factors_eq, Curve.x_factors_concat, List.getLast?_append,
    curve_linspace_getLast 2.5 10.0 (by norm_num)]
  norm_num

lemma curve_count_onefour : List.count (1.1 : ℚ) Curve.x_factors = 2 := by
  rw [curve_x_factors_eq, Curve.x_factors_concat, List.count_append, List.count_append]
  have c1 : List.count (1.1 : ℚ) (Curve.linspace 1.001 1.1 50) = 1 :=
    List.count_eq_one_of_mem
      (curve_linspace_sorted_lt 1.001 1.1 (by norm_num) (by norm_num : 2 ≤ 50)).nodup
      (curve_linspace_endpoint_mem 1.001 1.1 (by norm_num : 2 ≤ 50))
  have c2 : List.count (1.1 : ℚ) (Curve.linspace 1.1 2.5 50) = 1 :=
    List.count_eq_one_of_mem
      (curve_linspace_sorted_lt 1.1 2.5 (by norm_num) (by norm_num : 2 ≤ 50)).nodup
      (curve_linspace_start_mem 1.1 2.5 (by norm_num : 0 < 50))
  have c3 : List.count (1.1 : ℚ) (Curve.linspace 2.5 10.0 50) = 0 := by
    rw [List.count_eq_zero]
    intro hmem
    have := (curve_linspace_mem_bounds 2.5 10.0 (by norm_num) (by norm_num : 2 ≤ 50)
      _ hmem).1
    norm_num at this
  rw [c1, c2, c3]

lemma curve_count_twofive : List.count (2.5 : ℚ) Curve.x_factors = 2 := by
  rw [curve_x_factors_eq, Curve.x_factors_concat, List.count_append, List.count_append]
  have c1 : List.count (2.5 : ℚ) (Curve.linspace 1.001 1.1 50) = 0 := by
    rw [List.count_eq_zero]
    intro hmem
    have := (curve_linspace_mem_bounds 1.001 1.1 (by norm_num) (by norm_num : 2 ≤ 50)
      _ hmem).2
    norm_num at this
  have c2 : List.count (2.5 : ℚ) (Curve.linspace 1.1 2.5 50) = 1 :=
    List.count_eq_one_of_mem
      (curve_linspace_sorted_lt 1.1 2.5 (by norm_num) (by norm_num : 2 ≤ 50)).nodup
      (curve_linspace_endpoint_mem 1.1 2.5 (by norm_num : 2 ≤ 50))
  have c3 : List.count (2.5 : ℚ) (Curve.linspace 2.5 10.0 50) = 1 :=
    List.count_eq_one_of_mem
      (curve_linspace_sorted_lt 2.5 10.0 (by norm_num) (by norm_num : 2 ≤ 50)).nodup
      (curve_linspace_start_mem 2.5 10.0 (by norm_num : 0 < 50))
  rw [c1, c2, c3]

lemma curve_t_p_pos : 0 < Curve.t_p := by norm_num [Curve.t_p]

lemma curve_k_inv_t_p : Curve.k_inv = Curve.t_p := rfl

lemma curve_dilation_at_ten :
    Curve.calculate_time_dilation ((10 : ℚ) : ℝ) =
      some (Curve.k_inv / Real.sqrt (1 - (1 / 10 : ℝ) ^ 2)) := by
  have hcast : ((10 : ℚ) : ℝ) = (10 : ℝ) := by norm_num
  rw [Curve.calculate_time_dilation, hcast, if_neg (by norm_num)]

lemma curve_t_values_getLast :
    Curve.t_values.getLast? = some (some (Curve.k_inv / Real.sqrt (1 - (1 / 10 : ℝ) ^ 2))) := by
  rw [Curve.t_values, List.getLast?_map, curve_x_factors_getLast, Option.map_some',
    curve_dilation_at_ten]

lemma curve_dilation_factors_getLast :
    Curve.dilation_factors.getLast? =
      some (some (Curve.k_inv / Real.sqrt (1 - (1 / 10 : ℝ) ^ 2) / Curve.t_p)) := by
  rw [Curve.dilation_factors, List.getLast?_map, curve_t_values_getLast, Option.map_some',
    Option.map_some']

lemma curve_sqrt_99_pos : 0 < Real.sqrt (1 - (1 / 10 : ℝ) ^ 2) := by
  rw [Real.sqrt_pos]
  norm_num

lemma curve_ratio_val :
    Curve.k_inv / Real.sqrt (1 - (1 / 10 : ℝ) ^ 2) / Curve.t_p =
      1 / Real.sqrt (1 - (1 / 10 : ℝ) ^ 2) := by
  have ht : Curve.t_p ≠ 0 := ne_of_gt curve_t_p_pos
  have hs : Real.sqrt (1 - (1 / 10 : ℝ) ^ 2) ≠ 0 := ne_of_gt curve_sqrt_99_pos
  rw [curve_k_inv_t_p]
  field_simp
  ring

lemma curve_ratio_bounds :
    1 < 1 / Real.sqrt (1 - (1 / 10 : ℝ) ^ 2) ∧
      1 / Real.sqrt (1 - (1 / 10 : ℝ) ^ 2) < 1.006 := by
  have hs0 := curve_sqrt_99_pos
  have hlt : Real.sqrt (1 - (1 / 10 : ℝ) ^ 2) < 1 := by
    rw [Real.sqrt_lt' one_pos]
    norm_num
  have hgt : (0.9949 : ℝ) < Real.sqrt (1 - (1 / 10 : ℝ) ^ 2) := by
    rw [Real.lt_sqrt (by norm_num)]
    norm_num
  constructor
  · rw [lt_div_iff₀ hs0, one_mul]
    exact hlt
  · have h1 : 1 / Real.sqrt (1 - (1 / 10 : ℝ) ^ 2) < 1 / 0.9949 :=
      one_div_lt_one_div_of_lt (by norm_num) hgt
    have h2 : (1 : ℝ) / 0.9949 < 1.006 := by norm_num
    linarith

lemma adv_get_resistance_of_le {x : ℝ} (h : x ≤ Adv.L_P) : Adv.get_resistance x = 1e9 := by
  rw [Adv.get_resistance, if_pos h]

lemma curve_dilation_of_le {x : ℝ} (h : x ≤ 1) : Curve.calculate_time_dilation x = none := by
  rw [Curve.calculate_time_dilation, if_pos h]

lemma adv_get_resistance_of_clamp_off {x : ℝ} (hx : 1 < x)
    (h9 : 1e-9 ≤ Real.sqrt (1 - (Adv.L_P / x) ^ 2)) :
    Adv.get_resistance x = Adv.K_INV / Real.sqrt (1 - (Adv.L_P / x) ^ 2) := by
  simp only [Adv.get_resistance]
  rw [if_neg (not_le.mpr (by rw [adv_L_P_eq]; exact hx)), if_neg (not_lt.mpr h9)]

lemma adv_get_resistance_of_clamp_on {x : ℝ} (hx : 1 < x)
    (h9 : Real.sqrt (1 - (Adv.L_P / x) ^ 2) < 1e-9) :
    Adv.get_resistance x = 1e9 := by
  simp only [Adv.get_resistance]
  rw [if_neg (not_le.mpr (by rw [adv_L_P_eq]; exact hx)), if_pos h9, adv_K_INV_eq]
  norm_num

lemma adv_factor_mono {x y : ℝ} (hx : 1 < x) (hxy : x < y) :
    Real.sqrt (1 - (Adv.L_P / x) ^ 2) < Real.sqrt (1 - (Adv.L_P / y) ^ 2) := by
  apply Real.sqrt_lt_sqrt (le_of_lt (adv_radicand_pos x hx))
  rw [adv_L_P_eq]
  have hx0 : 0 < x := lt_trans one_pos hx
  have hy0 : 0 < y := lt_trans hx0 hxy
  have h1 : 1 / y < 1 / x := one_div_lt_one_div_of_lt hx0 hxy
  have h2 : (0 : ℝ) < 1 / y := by positivity
  have h3 : (1 / y) ^ 2 < (1 / x) ^ 2 := by nlinarith
  linarith

lemma adv_get_resistance_strict {x y : ℝ} (hx : 1 < x) (hxy : x < y)
    (hcl : 1e-9 ≤ Real.sqrt (1 - (Adv.L_P / x) ^ 2)) :
    Adv.get_resistance y < Adv.get_resistance x := by
  have hy : 1 < y := lt_trans hx hxy
  have hmono := adv_factor_mono hx hxy
  have hx0 : (0 : ℝ) < Real.sqrt (1 - (Adv.L_P / x) ^ 2) :=
    lt_of_lt_of_le (by norm_num) hcl
  rw [adv_get_resistance_of_clamp_off hx hcl,
    adv_get_resistance_of_clamp_off hy (le_of_lt (lt_of_le_of_lt hcl hmono)),
    adv_K_INV_eq]
  exact one_div_lt_one_div_of_lt hx0 hmono

lemma curve_dilation_of_gt {x : ℝ} (hx : 1 < x) :
    Curve.calculate_time_dilation x =
      some (Curve.k_inv / Real.sqrt (1 - (1 / x) ^ 2)) := by
  rw [Curve.calculate_time_dilation, if_neg (not_le.mpr hx)]

lemma curve_radicand_pos {x : ℝ} (hx : 1 < x) : 0 < 1 - (1 / x) ^ 2 := by
  have := adv_radicand_pos x hx
  rwa [adv_L_P_eq] at this

lemma curve_dilation_val_pos {x : ℝ} (hx : 1 < x) :
    0 < Curve.k_inv / Real.sqrt (1 - (1 / x) ^ 2) := by
  apply div_pos curve_t_p_pos
  rw [Real.sqrt_pos]
  exact curve_radicand_pos hx

lemma curve_dilation_strict {x y : ℝ} (hx : 1 < x) (hxy : x < y) :
    (Curve.calculate_time_dilation y).getD 0 < (Curve.calculate_time_dilation x).getD 0 := by
  have hy : 1 < y := lt_trans hx hxy
  rw [curve_dilation_of_gt hx, curve_dilation_of_gt hy, Option.getD_some, Option.getD_some]
  have hmono := adv_factor_mono hx hxy
  rw [adv_L_P_eq] at hmono
  have hsx : (0 : ℝ) < Real.sqrt (1 - (1 / x) ^ 2) := by
    rw [Real.sqrt_pos]; exact curve_radicand_pos hx
  exact div_lt_div_of_pos_left curve_t_p_pos hsx hmono

lemma adv_clamp_off_of_ge_two {x : ℝ} (hx : 2 ≤ x) :
    1e-9 ≤ Real.sqrt (1 - (Adv.L_P / x) ^ 2) := by
  rw [adv_L_P_eq, Real.le_sqrt' (by norm_num)]
  have hx0 : (0 : ℝ) < x := by linarith
  have h1 : 1 / x ≤ 1 / 2 := by
    rw [div_le_div_iff₀ hx0 (by norm_num)]
    linarith
  have h2 : (0 : ℝ) ≤ 1 / x := by positivity
  have h3 : (1 / x) ^ 2 ≤ (1 / 2) ^ 2 := by nlinarith
  nlinarith

lemma adv_get_resistance_tendsto :
    Filter.Tendsto Adv.get_resistance Filter.atTop (nhds Adv.K_INV) := by
  have h1 : Filter.Tendsto (fun x : ℝ => 1 - (Adv.L_P / x) ^ 2) Filter.atTop (nhds 1) := by
    have hinv : Filter.Tendsto (fun x : ℝ => Adv.L_P / x) Filter.atTop (nhds 0) :=
      Filter.Tendsto.div_atTop tendsto_const_nhds Filter.tendsto_id
    have hsq : Filter.Tendsto (fun x : ℝ => (Adv.L_P / x) ^ 2) Filter.atTop (nhds 0) := by
      simpa using hinv.pow 2
    simpa using tendsto_const_nhds.sub hsq
  have h2 : Filter.Tendsto (fun x : ℝ => Real.sqrt (1 - (Adv.L_P / x) ^ 2))
      Filter.atTop (nhds 1) := by
    have := (Real.continuous_sqrt.tendsto 1).comp h1
    simpa [Real.sqrt_one] using this
  have h3 : Filter.Tendsto (fun x : ℝ => Adv.K_INV / Real.sqrt (1 - (Adv.L_P / x) ^ 2))
      Filter.atTop (nhds Adv.K_INV) := by
    have := Filter.Tendsto.div (tendsto_const_nhds
      (x := Adv.K_INV) (f := Filter.atTop (α := ℝ))) h2 one_ne_zero
    simpa using this
  apply h3.congr'
  filter_upwards [Filter.eventually_ge_atTop (2 : ℝ)] with x hx
  rw [adv_get_resistance_of_clamp_off (by linarith) (adv_clamp_off_of_ge_two hx)]

lemma adv_clamp_on_example_one :
    Real.sqrt (1 - (Adv.L_P / (1 + 1e-19)) ^ 2) < 1e-9 := by
  rw [adv_L_P_eq, Real.sqrt_lt' (by norm_num)]
  norm_num

lemma adv_clamp_on_example_two :
    Real.sqrt (1 - (Adv.L_P / (1 + 2e-19)) ^ 2) < 1e-9 := by
  rw [adv_L_P_eq, Real.sqrt_lt' (by norm_num)]
  norm_num

lemma sim_cex_start_gt : Sim.l_p < 1 + 1e-8 := by
  rw [sim_l_p_eq]; norm_num

lemma sim_cex_denom :
    Sim.denomClamp (1 + 1e-8) = Real.sqrt (1 - (Sim.l_p / (1 + 1e-8)) ^ 2) := by
  have h9 : 1e-9 ≤ Real.sqrt (1 - (Sim.l_p / (1 + 1e-8)) ^ 2) := by
    rw [sim_l_p_eq, Real.le_sqrt' (by norm_num)]
    norm_num
  simp only [Sim.denomClamp]
  rw [if_neg (not_lt.mpr h9)]

lemma sim_cex_pos1_lt : Sim.itltPos (1 + 1e-8) 1 < 1 := by
  rw [Sim.itltPos, Function.iterate_one, sim_itltUpdate_of_gt _ sim_cex_start_gt,
    sim_step_val, sim_cex_denom, sim_l_p_eq]
  have hs : (2e-6 : ℝ) < Real.sqrt (1 - ((1 : ℝ) / (1 + 1e-8)) ^ 2) := by
    rw [Real.lt_sqrt (by norm_num)]
    norm_num
  have hv : Sim.v_infall = 0.5 := by norm_num [Sim.v_infall]
  have hdt : Sim.dt = 0.01 := by norm_num [Sim.dt]
  rw [hv, hdt]
  nlinarith

lemma sim_cex_pos1_gt : (0 : ℝ) < Sim.itltPos (1 + 1e-8) 1 := by
  have := sim_itltPos_gt_floor (1 + 1e-8)
    (by rw [sim_l_p_eq]; norm_num [Sim.v_infall, Sim.dt] : Sim.l_p - Sim.v_infall * Sim.dt < 1 + 1e-8) 1
  have hlp : Sim.l_p = 1 := sim_l_p_eq
  have hvdt : Sim.v_infall * Sim.dt = 0.005 := by norm_num [Sim.v_infall, Sim.dt]
  rw [hlp, hvdt] at this
  linarith

lemma sim_cex_pos2 : Sim.itltPos (1 + 1e-8) 2 = 1 := by
  have h2 : Sim.itltPos (1 + 1e-8) 2 = Sim.itltUpdate (Sim.itltPos (1 + 1e-8) 1) := by
    rw [Sim.itltPos, Sim.itltPos, show (2 : ℕ) = 1 + 1 from rfl,
      Function.iterate_succ_apply']
  have hle : Sim.itltPos (1 + 1e-8) 1 ≤ Sim.l_p := by
    rw [sim_l_p_eq]
    exact le_of_lt sim_cex_pos1_lt
  rw [h2, Sim.itltUpdate, if_neg (not_lt.mpr hle), sim_l_p_eq]

lemma adv_time_len (start : ℝ) (steps : ℕ) :
    (Adv.run_simulation start steps).time_points.length = steps := by
  rw [adv_run_closed]; simp

lemma adv_std_len (start : ℝ) (steps : ℕ) :
    (Adv.run_simulation start steps).hist_std.length = steps := by
  rw [adv_run_closed]; simp

lemma adv_itlt_len (start : ℝ) (steps : ℕ) :
    (Adv.run_simulation start steps).hist_itlt.length = steps := by
  rw [adv_run_closed]; simp

lemma adv_time_get (start : ℝ) {steps i : ℕ} (h : i < steps) :
    (Adv.run_simulation start steps).time_points[i]? = some (i * Adv.DT) := by
  rw [adv_run_closed]
  simp [List.getElem?_map, List.getElem?_range h]

lemma adv_std_get (start : ℝ) {steps i : ℕ} (h : i < steps) :
    (Adv.run_simulation start steps).hist_std[i]? = some (Adv.stdPos start i) := by
  rw [adv_run_closed]
  simp [List.getElem?_map, List.getElem?_range h]

lemma adv_itlt_get (start : ℝ) {steps i : ℕ} (h : i < steps) :
    (Adv.run_simulation start steps).hist_itlt[i]? = some (Adv.itltPos start i) := by
  rw [adv_run_closed]
  simp [List.getElem?_map, List.getElem?_range h]

lemma adv_std_last (start : ℝ) {steps : ℕ} (h : 0 < steps) :
    (Adv.run_simulation start steps).hist_std.getLast? =
      some (Adv.stdPos start (steps - 1)) := by
  rw [List.getLast?_eq_getElem?, adv_std_len, adv_std_get start (by omega)]

lemma adv_itlt_last (start : ℝ) {steps : ℕ} (h : 0 < steps) :
    (Adv.run_simulation start steps).hist_itlt.getLast? =
      some (Adv.itltPos start (steps - 1)) := by
  rw [List.getLast?_eq_getElem?, adv_itlt_len, adv_itlt_get start (by omega)]

lemma adv_state_std_eq (start : ℝ) (steps : ℕ) :
    (Adv.run_simulation start steps).state_std = Adv.stdPos start steps := by
  rw [adv_run_closed]

lemma adv_state_itlt_eq (start : ℝ) (steps : ℕ) :
    (Adv.run_simulation start steps).state_itlt = Adv.itltPos start steps := by
  rw [adv_run_closed]

lemma sim_time_len (start : ℝ) (steps : ℕ) :
    (Sim.run_simulation start steps).time_axis.length = steps := by
  rw [sim_run_closed]; simp

lemma sim_class_len (start : ℝ) (steps : ℕ) :
    (Sim.run_simulation start steps).dist_classical.length = steps := by
  rw [sim_run_closed]; simp

lemma sim_itlt_len (start : ℝ) (steps : ℕ) :
    (Sim.run_simulation start steps).dist_itlt.length = steps := by
  rw [sim_run_closed]; simp

lemma sim_time_get (start : ℝ) {steps i : ℕ} (h : i < steps) :
    (Sim.run_simulation start steps).time_axis[i]? = some (i * Sim.dt) := by
  rw [sim_run_closed]
  simp [List.getElem?_map, List.getElem?_range h]

lemma sim_class_get (start : ℝ) {steps i : ℕ} (h : i < steps) :
    (Sim.run_simulation start steps).dist_classical[i]? = some (Sim.classPos start i) := by
  rw [sim_run_closed]
  simp [List.getElem?_map, List.getElem?_range h]

lemma sim_itlt_get (start : ℝ) {steps i : ℕ} (h : i < steps) :
    (Sim.run_simulation start steps).dist_itlt[i]? = some (Sim.itltPos start i) := by
  rw [sim_run_closed]
  simp [List.getElem?_map, List.getElem?_range h]

lemma sim_class_last (start : ℝ) {steps : ℕ} (h : 0 < steps) :
    (Sim.run_simulation start steps).dist_classical.getLast? =
      some (Sim.classPos start (steps - 1)) := by
  rw [List.getLast?_eq_getElem?, sim_class_len, sim_class_get start (by omega)]

lemma sim_itlt_last (start : ℝ) {steps : ℕ} (h : 0 < steps) :
    (Sim.run_simulation start steps).dist_itlt.getLast? =
      some (Sim.itltPos start (steps - 1)) := by
  rw [List.getLast?_eq_getElem?, sim_itlt_len, sim_itlt_get start (by omega)]

lemma sim_state_class_eq (start : ℝ) (steps : ℕ) :
    (Sim.run_simulation start steps).x_class = Sim.classPos start steps := by
  rw [sim_run_closed]

lemma sim_state_itlt_eq (start : ℝ) (steps : ℕ) :
    (Sim.run_simulation start steps).x_itlt = Sim.itltPos start steps := by
  rw [sim_run_closed]

/-- C1: for every position `y` and every time step `dt`, one RK4 step in
Standard mode returns exactly `y - v_base*dt` with `v_base = 0.5` (the
Standard derivative is the constant `-v_base`, so all four stages agree and
the 4-stage update collapses to the Euler update), and at the script's step
size it computes the same next position as itlt_simulation.py's
`x_class -= v_infall * dt` while the particle is above 0. -/
theorem C1_rk4_standard_equals_euler (t y dt : ℝ) :
    Adv.rk4_step t y dt "standard" = some (y - Adv.v_base * dt) ∧
    Adv.v_base = 0.5 ∧
    (0 < y → (Adv.rk4_step t y Sim.dt "standard").getD 0 = Sim.classUpdate y) := by
  refine ⟨adv_rk4_standard t y dt, by norm_num [Adv.v_base], fun hy => ?_⟩
  rw [adv_rk4_standard, Option.getD_some, Sim.classUpdate, if_pos hy]
  norm_num [Adv.v_base, Sim.v_infall]

/-- Witness for C1 at `t = 0`, `y = 5`, `dt = Sim.dt`. -/
theorem C1_rk4_standard_equals_euler_witness :
    (0 : ℝ) < 5 ∧ (Adv.rk4_step 0 5 Sim.dt "standard").getD 0 = Sim.classUpdate 5 :=
  ⟨by norm_num, (C1_rk4_standard_equals_euler 0 5 Sim.dt).2.2 (by norm_num)⟩

/-- C2 counterexample: the claim fails for itlt_simulation.py, which has no
post-step clamp.  Started at `1 + 1e-8 > boundary_length`, the recorded ITLT
sample at index 1 is strictly below `boundary_length` (the damped Euler step
overshoots the boundary). -/
theorem C2_counterexample :
    Sim.l_p < 1 + 1e-8 ∧
    ((Sim.run_simulation (1 + 1e-8) Sim.total_steps).dist_itlt[1]?.getD 1) < Sim.l_p := by
  refine ⟨sim_cex_start_gt, ?_⟩
  rw [sim_itlt_get _ (by norm_num [Sim.total_steps] : 1 < Sim.total_steps),
    Option.getD_some, sim_l_p_eq]
  exact sim_cex_pos1_lt

/-- C2 amended: in Adwanced_simulation.py every recorded Standard sample is
`≥ 0` and every recorded ITLT sample is `≥ L_P`; in itlt_simulation.py,
whose updates have no post-step clamp, samples can undershoot the clamp
value by less than one step's travel: classical samples are
`> -(v_infall*dt)` and ITLT samples are `> l_p - v_infall*dt`. -/
theorem C2_boundary_containment_amended (start : ℝ) (steps i : ℕ)
    (h : 1 < start) (hi : i < steps) :
    0 ≤ (Adv.run_simulation start steps).hist_std[i]?.getD 0 ∧
    Adv.L_P ≤ (Adv.run_simulation start steps).hist_itlt[i]?.getD Adv.L_P ∧
    -(Sim.v_infall * Sim.dt) <
      (Sim.run_simulation start steps).dist_classical[i]?.getD 0 ∧
    Sim.l_p - Sim.v_infall * Sim.dt <
      (Sim.run_simulation start steps).dist_itlt[i]?.getD Sim.l_p := by
  rw [adv_std_get start hi, adv_itlt_get start hi, sim_class_get start hi,
    sim_itlt_get start hi]
  simp only [Option.getD_some]
  exact ⟨adv_stdPos_nonneg start (by linarith) i,
    adv_itltPos_ge start (by rw [adv_L_P_eq]; linarith) i,
    sim_classPos_gt_floor start (by linarith [sim_v_dt_pos]) i,
    sim_itltPos_gt_floor start (by rw [sim_l_p_eq]; linarith [sim_v_dt_pos]) i⟩

/-- Witness for the amended C2 at `start = 5`, `steps = 1`, `i = 0`. -/
theorem C2_boundary_containment_amended_witness :
    (1 : ℝ) < 5 ∧ (0 : ℕ) < 1 ∧
    (0 : ℝ) ≤ (Adv.run_simulation 5 1).hist_std[0]?.getD 0 :=
  ⟨by norm_num, by norm_num,
    (C2_boundary_containment_amended 5 1 0 (by norm_num) (by norm_num)).1⟩

/-- C3 counterexample: `get_resistance` is not strictly decreasing for every
`x` above the boundary: on the region just above `L_P` where the factor
falls below the `1e-9` epsilon clamp, it is constantly `1e9`, so two
distinct inputs give equal outputs. -/
theorem C3_counterexample :
    (1 : ℝ) < 1 + 1e-19 ∧ (1 + 1e-19 : ℝ) < 1 + 2e-19 ∧
    Adv.get_resistance (1 + 1e-19) = Adv.get_resistance (1 + 2e-19) := by
  refine ⟨by norm_num, by norm_num, ?_⟩
  rw [adv_get_resistance_of_clamp_on (by norm_num) adv_clamp_on_example_one,
    adv_get_resistance_of_clamp_on (by norm_num) adv_clamp_on_example_two]

/-- C3 amended: at or below the boundary both resistance functions return
their infinite sentinel (`1e9` resp. the infinite value `none`); above the
boundary both are finite and positive (`get_resistance` lies in
`(1, 1e9]`); `get_resistance` is strictly decreasing wherever the epsilon
clamp is inactive (the curve-sampler version is strictly decreasing on all
of `x > 1`); and `get_resistance` tends to `K_INV` as `x → ∞`. -/
theorem C3_resistance_amended :
    (∀ x : ℝ, x ≤ Adv.L_P → Adv.get_resistance x = 1e9) ∧
    (∀ x : ℝ, x ≤ 1 → Curve.calculate_time_dilation x = none) ∧
    (∀ x : ℝ, 1 < x → 1 < Adv.get_resistance x ∧ Adv.get_resistance x ≤ 1e9) ∧
    (∀ x : ℝ, 1 < x →
      Curve.calculate_time_dilation x =
        some (Curve.k_inv / Real.sqrt (1 - (1 / x) ^ 2)) ∧
      0 < (Curve.calculate_time_dilation x).getD 0) ∧
    (∀ x y : ℝ, 1 < x → x < y → 1e-9 ≤ Real.sqrt (1 - (Adv.L_P / x) ^ 2) →
      Adv.get_resistance y < Adv.get_resistance x) ∧
    (∀ x y : ℝ, 1 < x → x < y →
      (Curve.calculate_time_dilation y).getD 0 <
        (Curve.calculate_time_dilation x).getD 0) ∧
    Filter.Tendsto Adv.get_resistance Filter.atTop (nhds Adv.K_INV) := by
  refine ⟨fun x hx => adv_get_resistance_of_le hx,
    fun x hx => curve_dilation_of_le hx,
    fun x hx => adv_get_resistance_mem x,
    fun x hx => ⟨curve_dilation_of_gt hx, ?_⟩,
    fun x y hx hxy hcl => adv_get_resistance_strict hx hxy hcl,
    fun x y hx hxy => curve_dilation_strict hx hxy,
    adv_get_resistance_tendsto⟩
  rw [curve_dilation_of_gt hx, Option.getD_some]
  exact curve_dilation_val_pos hx

/-- Witness for the amended C3 at concrete inputs `1/2`, `2` and `3`. -/
theorem C3_resistance_amended_witness :
    Adv.get_resistance (1 / 2) = 1e9 ∧
    Curve.calculate_time_dilation (1 / 2) = none ∧
    1 < Adv.get_resistance 2 ∧
    0 < (Curve.calculate_time_dilation 2).getD 0 ∧
    Adv.get_resistance 3 < Adv.get_resistance 2 ∧
    (Curve.calculate_time_dilation 3).getD 0 < (Curve.calculate_time_dilation 2).getD 0 := by
  obtain ⟨h1, h2, h3, h4, h5, h6, -⟩ := C3_resistance_amended
  exact ⟨h1 _ (by rw [adv_L_P_eq]; norm_num), h2 _ (by norm_num),
    (h3 2 (by norm_num)).1, (h4 2 (by norm_num)).2,
    h5 2 3 (by norm_num) (by norm_num) (adv_clamp_off_of_ge_two (by norm_num)),
    h6 2 3 (by norm_num) (by norm_num)⟩

/-- C4: in both implementations a run of `steps` iterations records exactly
`steps` samples in each of the three sequences; the time at index `i` is
exactly `i*dt`; the position samples at index `i` are the states after `i`
updates (index 0 being the initial state `start`); the recorded sequences
end at the state after `steps - 1` updates, while the state computed by the
final loop iteration (`steps` updates) is held only in the loop state and
is never recorded. -/
theorem C4_off_by_one_recording (start : ℝ) (steps i : ℕ) (hi : i < steps) :
    (Adv.run_simulation start steps).time_points.length = steps ∧
    (Adv.run_simulation start steps).hist_std.length = steps ∧
    (Adv.run_simulation start steps).hist_itlt.length = steps ∧
    (Sim.run_simulation start steps).time_axis.length = steps ∧
    (Sim.run_simulation start steps).dist_classical.length = steps ∧
    (Sim.run_simulation start steps).dist_itlt.length = steps ∧
    (Adv.run_simulation start steps).time_points[i]? = some (i * Adv.DT) ∧
    (Sim.run_simulation start steps).time_axis[i]? = some (i * Sim.dt) ∧
    (Adv.run_simulation start steps).hist_std[i]? = some (Adv.stdPos start i) ∧
    (Adv.run_simulation start steps).hist_itlt[i]? = some (Adv.itltPos start i) ∧
    (Sim.run_simulation start steps).dist_classical[i]? = some (Sim.classPos start i) ∧
    (Sim.run_simulation start steps).dist_itlt[i]? = some (Sim.itltPos start i) ∧
    (Adv.run_simulation start steps).hist_std[0]? = some start ∧
    (Adv.run_simulation start steps).hist_itlt[0]? = some start ∧
    (Sim.run_simulation start steps).dist_classical[0]? = some start ∧
    (Sim.run_simulation start steps).dist_itlt[0]? = some start ∧
    (Adv.run_simulation start steps).hist_std.getLast? =
      some (Adv.stdPos start (steps - 1)) ∧
    (Adv.run_simulation start steps).hist_itlt.getLast? =
      some (Adv.itltPos start (steps - 1)) ∧
    (Sim.run_simulation start steps).dist_classical.getLast? =
      some (Sim.classPos start (steps - 1)) ∧
    (Sim.run_simulation start steps).dist_itlt.getLast? =
      some (Sim.itltPos start (steps - 1)) ∧
    (Adv.run_simulation start steps).state_std = Adv.stdPos start steps ∧
    (Adv.run_simulation start steps).state_itlt = Adv.itltPos start steps ∧
    (Sim.run_simulation start steps).x_class = Sim.classPos start steps ∧
    (Sim.run_simulation start steps).x_itlt = Sim.itltPos start steps := by
  have h0 : 0 < steps := by omega
  refine ⟨adv_time_len start steps, adv_std_len start steps, adv_itlt_len start steps,
    sim_time_len start steps, sim_class_len start steps, sim_itlt_len start steps,
    adv_time_get start hi, sim_time_get start hi,
    adv_std_get start hi, adv_itlt_get start hi,
    sim_class_get start hi, sim_itlt_get start hi,
    ?_, ?_, ?_, ?_,
    adv_std_last start h0, adv_itlt_last start h0,
    sim_class_last start h0, sim_itlt_last start h0,
    adv_state_std_eq start steps, adv_state_itlt_eq start steps,
    sim_state_class_eq start steps, sim_state_itlt_eq start steps⟩
  · rw [adv_std_get start h0]; simp [Adv.stdPos]
  · rw [adv_itlt_get start h0]; simp [Adv.itltPos]
  · rw [sim_class_get start h0]; simp [Sim.classPos]
  · rw [sim_itlt_get start h0]; simp [Sim.itltPos]

/-- Witness for C4 at `start = 5`, `steps = 2`, `i = 1`. -/
theorem C4_off_by_one_recording_witness :
    (1 : ℕ) < 2 ∧ (Adv.run_simulation (5 : ℝ) 2).time_points.length = 2 :=
  ⟨by norm_num, (C4_off_by_one_recording 5 2 1 (by norm_num)).1⟩

/-- C5 counterexample: the claim fails for itlt_simulation.py.  Started at
`1 + 1e-8 > boundary_length`, the ITLT sample at index 1 undershoots below
the boundary and the sample at index 2 is reset up to `l_p`, so the
recorded sequence increases from index 1 to index 2. -/
theorem C5_counterexample :
    Sim.l_p < 1 + 1e-8 ∧
    ((Sim.run_simulation (1 + 1e-8) Sim.total_steps).dist_itlt[1]?.getD 0) <
      ((Sim.run_simulation (1 + 1e-8) Sim.total_steps).dist_itlt[2]?.getD 0) := by
  refine ⟨sim_cex_start_gt, ?_⟩
  rw [sim_itlt_get _ (by norm_num [Sim.total_steps] : 1 < Sim.total_steps),
    sim_itlt_get _ (by norm_num [Sim.total_steps] : 2 < Sim.total_steps)]
  simp only [Option.getD_some]
  rw [sim_cex_pos2]
  exact sim_cex_pos1_lt

/-- C5 amended: in Adwanced_simulation.py both recorded sequences are
non-increasing step-to-step; in itlt_simulation.py each next sample is
bounded by `max` of the previous sample and the clamp value — so the
sequences are non-increasing except for at most a single reset step back up
to the clamp value after an undershoot. -/
theorem C5_monotonic_amended (start : ℝ) (steps i : ℕ)
    (h : 1 < start) (hi : i + 1 < steps) :
    (Adv.run_simulation start steps).hist_std[i+1]?.getD 0 ≤
      (Adv.run_simulation start steps).hist_std[i]?.getD 0 ∧
    (Adv.run_simulation start steps).hist_itlt[i+1]?.getD 0 ≤
      (Adv.run_simulation start steps).hist_itlt[i]?.getD 0 ∧
    (Sim.run_simulation start steps).dist_classical[i+1]?.getD 0 ≤
      max ((Sim.run_simulation start steps).dist_classical[i]?.getD 0) 0 ∧
    (Sim.run_simulation start steps).dist_itlt[i+1]?.getD 0 ≤
      max ((Sim.run_simulation start steps).dist_itlt[i]?.getD 0) Sim.l_p := by
  have hi' : i < steps := by omega
  rw [adv_std_get start hi, adv_std_get start hi', adv_itlt_get start hi,
    adv_itlt_get start hi', sim_class_get start hi, sim_class_get start hi',
    sim_itlt_get start hi, sim_itlt_get start hi']
  simp only [Option.getD_some]
  exact ⟨adv_stdPos_mono start (by linarith) i,
    adv_itltPos_mono start (by rw [adv_L_P_eq]; linarith) i,
    sim_classPos_succ_le_max start i, sim_itltPos_succ_le_max start i⟩

/-- Witness for the amended C5 at `start = 5`, `steps = 2`, `i = 0`. -/
theorem C5_monotonic_amended_witness :
    (0 + 1 : ℕ) < 2 ∧
    (Adv.run_simulation (5 : ℝ) 2).hist_std[0+1]?.getD 0 ≤
      (Adv.run_simulation (5 : ℝ) 2).hist_std[0]?.getD 0 :=
  ⟨by norm_num, (C5_monotonic_amended 5 2 0 (by norm_num) (by norm_num)).1⟩

/-- C6: for each particle in each implementation, once the position after
`n` updates equals its terminal clamp value (0 for Standard, the boundary
for ITLT), the position after every later number of updates equals that
same clamp value — the update functions fix the clamp value, so the
Crashed/Frozen state is irreversible and no integration step moves the
particle again. -/
theorem C6_freeze_crash_permanence (start : ℝ) (n m : ℕ) (hnm : n ≤ m) :
    (Adv.stdPos start n = 0 → Adv.stdPos start m = 0) ∧
    (Adv.itltPos start n = Adv.L_P → Adv.itltPos start m = Adv.L_P) ∧
    (Sim.classPos start n = 0 → Sim.classPos start m = 0) ∧
    (Sim.itltPos start n = Sim.l_p → Sim.itltPos start m = Sim.l_p) :=
  ⟨adv_stdPos_absorb start n m hnm, adv_itltPos_absorb start n m hnm,
    sim_classPos_absorb start n m hnm, sim_itltPos_absorb start n m hnm⟩

lemma sim_classPos_crash_eval : Sim.classPos 0.005 1 = 0 := by
  rw [Sim.classPos, Function.iterate_one, Sim.classUpdate,
    if_pos (by norm_num : (0 : ℝ) < 0.005)]
  norm_num [Sim.v_infall, Sim.dt]

/-- Witness for C6: the classical particle of itlt_simulation.py started at
`0.005` reaches exactly 0 after one update and stays there. -/
theorem C6_freeze_crash_permanence_witness :
    (1 : ℕ) ≤ 2 ∧ Sim.classPos 0.005 2 = 0 :=
  ⟨by norm_num,
    (C6_freeze_crash_permanence 0.005 1 2 (by norm_num)).2.2.1 sim_classPos_crash_eval⟩

/-- C7: the curve sampler's grid is exactly 150 distance factors — 50
evenly spaced points per band, concatenated and sorted ascending (the
concatenation is already ascending, so sorting is the identity) — with
first factor 1.001, last factor 10.0, and the shared band endpoints 1.1
and 2.5 each present twice (not deduplicated); the evaluated tables have
the same 150 rows. -/
theorem C7_curve_sampler_grid :
    Curve.x_factors.length = 150 ∧
    Curve.t_values.length = 150 ∧
    Curve.dilation_factors.length = 150 ∧
    Curve.x_factors = Curve.x_factors_concat ∧
    List.Sorted (· ≤ ·) Curve.x_factors ∧
    Curve.x_factors.head? = some 1.001 ∧
    Curve.x_factors.getLast? = some 10 ∧
    List.count (1.1 : ℚ) Curve.x_factors = 2 ∧
    List.count (2.5 : ℚ) Curve.x_factors = 2 ∧
    (Curve.linspace 1.001 1.1 50).length = 50 ∧
    (Curve.linspace 1.1 2.5 50).length = 50 ∧
    (Curve.linspace 2.5 10.0 50).length = 50 :=
  ⟨curve_x_factors_length,
    by rw [Curve.t_values, List.length_map, curve_x_factors_length],
    by rw [Curve.dilation_factors, List.length_map, Curve.t_values, List.length_map,
      curve_x_factors_length],
    curve_x_factors_eq, curve_x_factors_sorted, curve_x_factors_head,
    curve_x_factors_getLast, curve_count_onefour, curve_count_twofive,
    curve_linspace_length 1.001 1.1 50, curve_linspace_length 1.1 2.5 50,
    curve_linspace_length 2.5 10.0 50⟩

/-- C8: the last row of the dilation table (distance factor 10.0) has the
finite dilation ratio `calculate_time_dilation(10)/t_p`, which equals
`(k_inv/sqrt(1-0.01))/t_p`; since `k_inv = t_p` this is exactly the
normalized value `1/sqrt(1-0.01)`, a finite number strictly between 1 and
1.006. -/
theorem C8_dilation_ratio_at_ten :
    Curve.dilation_factors.getLast? =
      some (some (Curve.k_inv / Real.sqrt (1 - (1 / 10 : ℝ) ^ 2) / Curve.t_p)) ∧
    Curve.k_inv = Curve.t_p ∧
    Curve.k_inv / Real.sqrt (1 - (1 / 10 : ℝ) ^ 2) / Curve.t_p =
      1 / Real.sqrt (1 - (1 / 10 : ℝ) ^ 2) ∧
    1 < 1 / Real.sqrt (1 - (1 / 10 : ℝ) ^ 2) ∧
    1 / Real.sqrt (1 - (1 / 10 : ℝ) ^ 2) < 1.006 :=
  ⟨curve_dilation_factors_getLast, curve_k_inv_t_p, curve_ratio_val,
    curve_ratio_bounds.1, curve_ratio_bounds.2⟩

/-- C9: for every real input, `get_resistance` returns a finite value in
`(1, 1e9]`; hence the ITLT derivative `-v_base/get_resistance x` is always
defined, finite and strictly negative; and in itlt_simulation.py the
clamped denominator is at least `1e-9`, hence positive, so no division by
zero occurs in either trajectory implementation. -/
theorem C9_resistance_always_safe (t x : ℝ) :
    1 < Adv.get_resistance x ∧ Adv.get_resistance x ≤ 1e9 ∧
    Adv.derivatives t x "itlt" = some (-Adv.v_base / Adv.get_resistance x) ∧
    -Adv.v_base / Adv.get_resistance x < 0 ∧
    1e-9 ≤ Sim.denomClamp x ∧ 0 < Sim.denomClamp x :=
  ⟨(adv_get_resistance_mem x).1, (adv_get_resistance_mem x).2,
    adv_derivatives_itlt t x, adv_deriv_val_neg x,
    (sim_denomClamp_mem x).1, sim_denomClamp_pos x⟩

/-- C10: `derivatives` produces a velocity (the single entry of the
returned 1-element vector, modelled as the scalar inside `some`) exactly
when the mode is `'standard'` or `'itlt'`; for any other mode string the
local velocity is never assigned and the call fails, modelled by `none`. -/
theorem C10_derivatives_total_iff_valid_mode (t y : ℝ) (mode : String) :
    (Adv.derivatives t y mode).isSome = true ↔
      (mode = "standard" ∨ mode = "itlt") := by
  by_cases h1 : mode = "standard"
  · simp [Adv.derivatives, h1]
  · by_cases h2 : mode = "itlt"
    · simp [Adv.derivatives, h1, h2]
    · simp [Adv.derivatives, h1, h2]
